import Mathlib

/-!
# Verification of the Fragile C++-to-MIR translator test-corpus semantics

The repository under verification is a C++-to-MIR translator.  Its test
corpus (`tests/cpp`, `tests/clang_integration`, `tests/e2e`) consists of
small C++ translation units together with the values the lowered and
interpreted programs are expected to produce.  This file shallowly embeds
those C++ fixtures in Lean: every C++ `int` is a mathematical integer
carried in two's-complement 32-bit range, with arithmetic wrapping modulo
`2^32` (the MIR type of these locals is the signed 32-bit integral type);
pointers are a base buffer paired with an element offset; C++ functions
become Lean functions, loops become tail-recursive functions whose
termination is proved from the loop guard.

Components of the translator itself that the claims touch but whose code
is not part of the source tree (the name resolver and the concept /
overload machinery) are modelled from the specification, and are marked
as such in their doc comments.
-/

/-- Two's-complement wrap of an integer into the signed 32-bit range
`[-2^31, 2^31)`; this is the value a C++ `int` holds after an arithmetic
operation in the lowered MIR. -/
def wrap32 (n : Int) : Int := (n + 2 ^ 31) % 2 ^ 32 - 2 ^ 31

/-- Signed 32-bit `+` as performed on C++ `int` operands. -/
def add32 (a b : Int) : Int := wrap32 (a + b)

/-- Signed 32-bit `*` as performed on C++ `int` operands. -/
def mul32 (a b : Int) : Int := wrap32 (a * b)

/-- The value range of a C++ `int` (signed 32-bit). -/
def IsI32 (n : Int) : Prop := -2 ^ 31 ≤ n ∧ n < 2 ^ 31

instance (n : Int) : Decidable (IsI32 n) := by
  unfold IsI32; infer_instance

theorem wrap32_isI32 (n : Int) : IsI32 (wrap32 n) := by
  unfold IsI32 wrap32
  constructor <;> omega

theorem wrap32_eq_self {n : Int} (h : IsI32 n) : wrap32 n = n := by
  unfold IsI32 at h
  unfold wrap32
  omega

theorem wrap32_add_left (a b : Int) : wrap32 (wrap32 a + b) = wrap32 (a + b) := by
  unfold wrap32
  omega

theorem wrap32_add_right (a b : Int) : wrap32 (a + wrap32 b) = wrap32 (a + b) := by
  unfold wrap32
  omega

/-! ## Virtual diamond fixture (`tests/clang_integration/virtual_diamond.cpp`)

The hierarchy is `A` virtually inherited by `B` and `C`, with `D` deriving
from both.  Because the inheritance of `A` is virtual, a `D` object holds a
single shared `A` subobject: the embedding therefore has exactly one `a`
field, and both base-path accessors read it.  Constructing `D(v)` runs the
member initialisers `A(v)`, `B(v)`, `C(v)`, `d(v + 3)`; the most-derived
constructor initialises the virtual base, so `a = v`, `b = v + 1`,
`c = v + 2`, `d = v + 3`. -/

/-- The fields of a fully constructed `D` object.  The single `a` field is
the shared virtual-base `A` subobject. -/
structure DObj where
  a : Int
  b : Int
  c : Int
  d : Int

/-- The constructor `D::D(int v)`: `A(v), B(v), C(v), d(v+3)` where
`B(v)` sets `b = v + 1` and `C(v)` sets `c = v + 2` (their calls to `A(v)`
are skipped: the virtual base is initialised by the most-derived class). -/
def DObj.construct (v : Int) : DObj :=
  { a := v, b := add32 v 1, c := add32 v 2, d := add32 v 3 }

/-- `B::getAFromB`: reads `a` through the `B` base subobject; the virtual
base pointer leads to the shared `A`. -/
def DObj.getAFromB (o : DObj) : Int := o.a

/-- `C::getAFromC`: reads `a` through the `C` base subobject; the virtual
base pointer leads to the same shared `A`. -/
def DObj.getAFromC (o : DObj) : Int := o.a

/-- `D::sum`: `return a + b + c + d;` (left-associated `int` addition). -/
def DObj.sum (o : DObj) : Int := add32 (add32 (add32 o.a o.b) o.c) o.d

/-- `D::sumViaBases`: `return B::getAFromB() + C::getAFromC() + d;`. -/
def DObj.sumViaBases (o : DObj) : Int :=
  add32 (add32 o.getAFromB o.getAFromC) o.d

/-- `diamond_sum(int v)`: constructs `D d(v)` and returns `d.sum()`. -/
def diamond_sum (v : Int) : Int := (DObj.construct v).sum

/-- `diamond_sum_via_bases(int v)`: constructs `D d(v)` and returns
`d.sumViaBases()`. -/
def diamond_sum_via_bases (v : Int) : Int := (DObj.construct v).sumViaBases

/-- C1, counterexample: at `v = 1` the program returns `6`, but the claimed
formula `3*v + (v+3)` evaluates to `7`. -/
theorem diamond_sum_via_bases_one_ne_claimed :
    ¬ diamond_sum_via_bases 1 = 3 * 1 + (1 + 3) := by decide

/-- C1, amended: for every 32-bit `v`, `D(v).sumViaBases()` returns
`2*v + (v+3)` (that is, `3*v + 3`) wrapped to `int`, the two `getA` calls
both reading the single shared virtual-base subobject. -/
theorem diamond_sum_via_bases_formula (v : Int) (_h : IsI32 v) :
    diamond_sum_via_bases v = wrap32 (2 * v + (v + 3)) := by
  unfold diamond_sum_via_bases DObj.construct DObj.sumViaBases
    DObj.getAFromB DObj.getAFromC add32
  simp only
  rw [wrap32_add_left, wrap32_add_right]
  ring_nf

/-- C1 witness: the amended formula evaluated at `v = 1` gives `6`. -/
theorem diamond_sum_via_bases_formula_witness :
    diamond_sum_via_bases 1 = wrap32 (2 * 1 + (1 + 3)) :=
  diamond_sum_via_bases_formula 1 (by decide)

/-- C2: `diamond_sum(1)` returns `1 + 2 + 3 + 4 = 10`, and
`diamond_sum_via_bases(1)` returns `1 + 1 + 4 = 6`: the shared virtual-base
subobject holds `a = 1` and is read identically through the `B` path and
the `C` path. -/
theorem diamond_sum_one :
    diamond_sum 1 = 10 ∧ diamond_sum_via_bases 1 = 6 ∧
      (DObj.construct 1).getAFromB = (DObj.construct 1).getAFromC := by
  refine ⟨by decide, by decide, rfl⟩

/-! ## Pointer post-increment fixture (`tests/e2e/deref_postinc.cpp`)

A `const char*` is embedded as a base character buffer paired with a byte
offset into it.  `get_and_advance(const char** ptr_ptr)` is embedded in
state-passing style: its argument is the pointer currently stored in
`*ptr_ptr` and its result pairs the returned character with the pointer
written back through `ptr_ptr`. -/

/-- A `const char*`: the pointed-into buffer and the current offset. -/
structure CharPtr where
  buf : List Char
  off : Nat

/-- Reading `*p` for a `char` pointer (in-bounds reads return the buffer
character; the fixture never reads out of bounds). -/
def CharPtr.deref (p : CharPtr) : Char := p.buf.getD p.off (Char.ofNat 0)

/-- Pointer increment `p + 1`: advances the offset by one `char`
(`sizeof(char) = 1` byte). -/
def CharPtr.inc (p : CharPtr) : CharPtr := { p with off := p.off + 1 }

/-- `get_and_advance`: loads `ptr = *ptr_ptr`, evaluates `*ptr++` — read
through the original pointer into `result`, then increment `ptr` — and
stores `ptr` back through `ptr_ptr`.  Returns `(result, new *ptr_ptr)`. -/
def get_and_advance (pp : CharPtr) : Char × CharPtr :=
  let ptr := pp
  let result := ptr.deref
  let ptr2 := ptr.inc
  (result, ptr2)

/-- The string literal `"hello"` with a pointer to its first character. -/
def helloPtr : CharPtr := { buf := [ 'h', 'e', 'l', 'l', 'o' ], off := 0 }

/-- `main()` of the fixture: three successive `get_and_advance` calls on a
pointer starting at `"hello"`, returning a nonzero error code at the first
unexpected character and `0` on success. -/
def derefPostincMain : Int :=
  let pp := helloPtr
  let r1 := get_and_advance pp
  if r1.1 ≠ 'h' then 1 else
  let r2 := get_and_advance r1.2
  if r2.1 ≠ 'e' then 2 else
  let r3 := get_and_advance r2.2
  if r3.1 ≠ 'l' then 3 else
  0

/-- C3: `*p++` reads the character at the original pointer and stores back
the pointer advanced by exactly one `char`; three successive calls starting
from `"hello"` yield `'h'`, `'e'`, `'l'`, and `main()` returns `0`. -/
theorem get_and_advance_spec :
    (∀ p : CharPtr, (get_and_advance p).1 = p.deref ∧
      (get_and_advance p).2.buf = p.buf ∧
      (get_and_advance p).2.off = p.off + 1) ∧
    (get_and_advance helloPtr).1 = 'h' ∧
    (get_and_advance (get_and_advance helloPtr).2).1 = 'e' ∧
    (get_and_advance (get_and_advance (get_and_advance helloPtr).2).2).1 = 'l' ∧
    derefPostincMain = 0 := by
  refine ⟨fun p => ⟨rfl, rfl, rfl⟩, by decide, by decide, by decide, by decide⟩

/-! ## Recursion fixture (`tests/cpp/grammar/11_recursion.cpp`,
`tests/clang_integration/factorial.cpp`)

`factorial` and `fibonacci` are direct recursions on a C++ `int`.  They
are embedded as total functions (termination is justified by the strictly
decreasing argument), together with fuel-indexed evaluators that make the
termination claim C10 explicit: for every input some finite call depth
suffices. -/

/-- `int factorial(int n) { if (n <= 1) return 1; return n * factorial(n - 1); }` -/
def factorial (n : Int) : Int :=
  if n ≤ 1 then 1 else mul32 n (factorial (n - 1))
termination_by n.toNat
decreasing_by omega

/-- `int fibonacci(int n) { if (n <= 1) return n;
return fibonacci(n - 1) + fibonacci(n - 2); }` -/
def fibonacci (n : Int) : Int :=
  if n ≤ 1 then n else add32 (fibonacci (n - 1)) (fibonacci (n - 2))
termination_by n.toNat
decreasing_by all_goals omega

/-- Fuel-indexed evaluator for `factorial`: `none` when the call depth
exceeds the fuel, `some` of the returned value otherwise. -/
def factorialFuel : Nat → Int → Option Int
  | 0, _ => none
  | k + 1, n =>
    if n ≤ 1 then some 1
    else (factorialFuel k (n - 1)).map fun r => mul32 n r

/-- Fuel-indexed evaluator for `fibonacci`. -/
def fibonacciFuel : Nat → Int → Option Int
  | 0, _ => none
  | k + 1, n =>
    if n ≤ 1 then some n
    else do
      let r1 ← fibonacciFuel k (n - 1)
      let r2 ← fibonacciFuel k (n - 2)
      pure (add32 r1 r2)

theorem factorialFuel_eq (k : Nat) (n : Int) (h : n.toNat < k) :
    factorialFuel k n = some (factorial n) := by
  induction k generalizing n with
  | zero => omega
  | succ k ih =>
    rw [factorialFuel, factorial]
    by_cases hb : n ≤ 1
    · simp [hb]
    · rw [if_neg hb, if_neg hb, ih (n - 1) (by omega)]
      rfl

theorem fibonacciFuel_eq (k : Nat) (n : Int) (h : n.toNat < k) :
    fibonacciFuel k n = some (fibonacci n) := by
  induction k generalizing n with
  | zero => omega
  | succ k ih =>
    rw [fibonacciFuel, fibonacci]
    by_cases hb : n ≤ 1
    · simp [hb]
    · rw [if_neg hb, if_neg hb, ih (n - 1) (by omega), ih (n - 2) (by omega)]
      rfl

/-- C4: `factorial(5)` returns `120`. -/
theorem factorial_five : factorial 5 = 120 := by
  have h := factorialFuel_eq 6 5 (by decide)
  have hc : factorialFuel 6 5 = some 120 := by decide
  rw [hc] at h
  exact (Option.some_inj.mp h).symm

/-! ### Call structure of `fibonacci`

To state that every non-base-case invocation of `fibonacci` calls
`fibonacci` exactly twice, the `return` expression of its non-base branch,
`fibonacci(n - 1) + fibonacci(n - 2)`, is also embedded as a syntax tree
over the function parameter, with an evaluator, a syntactic count of the
recursive call sites, and an instrumented evaluator counting the dynamic
invocations of the recursive callee. -/

/-- Expressions of the recursion fixture's function bodies: `int` literals,
the function parameter `n`, a recursive call to the enclosing function, and
the arithmetic operators appearing in the fixture. -/
inductive RecExp where
  | lit : Int → RecExp
  | param : RecExp
  | selfCall : RecExp → RecExp
  | addE : RecExp → RecExp → RecExp
  | subE : RecExp → RecExp → RecExp
  | mulE : RecExp → RecExp → RecExp

/-- Evaluation of a body expression, with `f` the enclosing function (the
target of the recursive calls) and `n` the parameter's value.  Subtraction
is the fixture's `n - 1` / `n - 2`, which never leaves the `int` range for
any reachable `n`, so it is plain integer subtraction here exactly as in
the recursive definitions above. -/
def evalRec (f : Int → Int) (n : Int) : RecExp → Int
  | .lit k => k
  | .param => n
  | .selfCall e => f (evalRec f n e)
  | .addE a b => add32 (evalRec f n a) (evalRec f n b)
  | .subE a b => evalRec f n a - evalRec f n b
  | .mulE a b => mul32 (evalRec f n a) (evalRec f n b)

/-- Number of recursive call sites occurring in a body expression. -/
def countSelfCalls : RecExp → Nat
  | .lit _ => 0
  | .param => 0
  | .selfCall e => 1 + countSelfCalls e
  | .addE a b => countSelfCalls a + countSelfCalls b
  | .subE a b => countSelfCalls a + countSelfCalls b
  | .mulE a b => countSelfCalls a + countSelfCalls b

/-- Instrumented evaluator: the value of the expression together with the
number of invocations of the recursive callee `f` performed while
evaluating it. -/
def evalRecCount (f : Int → Int) (n : Int) : RecExp → Int × Nat
  | .lit k => (k, 0)
  | .param => (n, 0)
  | .selfCall e =>
    let r := evalRecCount f n e
    (f r.1, 1 + r.2)
  | .addE a b =>
    let ra := evalRecCount f n a
    let rb := evalRecCount f n b
    (add32 ra.1 rb.1, ra.2 + rb.2)
  | .subE a b =>
    let ra := evalRecCount f n a
    let rb := evalRecCount f n b
    (ra.1 - rb.1, ra.2 + rb.2)
  | .mulE a b =>
    let ra := evalRecCount f n a
    let rb := evalRecCount f n b
    (mul32 ra.1 rb.1, ra.2 + rb.2)

theorem evalRecCount_fst (f : Int → Int) (n : Int) (e : RecExp) :
    (evalRecCount f n e).1 = evalRec f n e := by
  induction e with
  | lit k => rfl
  | param => rfl
  | selfCall e ih => simp [evalRecCount, evalRec, ih]
  | addE a b iha ihb => simp [evalRecCount, evalRec, iha, ihb]
  | subE a b iha ihb => simp [evalRecCount, evalRec, iha, ihb]
  | mulE a b iha ihb => simp [evalRecCount, evalRec, iha, ihb]

theorem evalRecCount_snd (f : Int → Int) (n : Int) (e : RecExp) :
    (evalRecCount f n e).2 = countSelfCalls e := by
  induction e with
  | lit k => rfl
  | param => rfl
  | selfCall e ih => simp [evalRecCount, countSelfCalls, ih]
  | addE a b iha ihb => simp [evalRecCount, countSelfCalls, iha, ihb]
  | subE a b iha ihb => simp [evalRecCount, countSelfCalls, iha, ihb]
  | mulE a b iha ihb => simp [evalRecCount, countSelfCalls, iha, ihb]

/-- The non-base-case `return` expression of `fibonacci`:
`fibonacci(n - 1) + fibonacci(n - 2)`. -/
def fibonacciBody : RecExp :=
  .addE (.selfCall (.subE .param (.lit 1))) (.selfCall (.subE .param (.lit 2)))

/-- C5: `fibonacci(10)` returns `55`; the non-base branch of `fibonacci`
evaluates exactly its body expression, that body contains exactly two
recursive call sites, and evaluating it performs exactly two invocations of
the callee — every non-base-case invocation calls `fibonacci` exactly
twice. -/
theorem fibonacci_ten_and_call_structure :
    fibonacci 10 = 55 ∧
    (∀ n : Int, fibonacci n =
      if n ≤ 1 then n else evalRec fibonacci n fibonacciBody) ∧
    countSelfCalls fibonacciBody = 2 ∧
    (∀ (f : Int → Int) (n : Int), (evalRecCount f n fibonacciBody).2 = 2) := by
  refine ⟨?_, ?_, by decide, fun f n => rfl⟩
  · have h := fibonacciFuel_eq 11 10 (by decide)
    have hc : fibonacciFuel 11 10 = some 55 := by decide
    rw [hc] at h
    exact (Option.some_inj.mp h).symm
  · intro n
    rw [fibonacci]
    by_cases hb : n ≤ 1
    · rw [if_pos hb, if_pos hb]
    · rw [if_neg hb, if_neg hb]
      simp [evalRec, fibonacciBody]

/-- C10: `factorial` and `fibonacci` terminate on every `int` input — for
every `n` some finite fuel makes the fuel-indexed evaluator return `some`
of the value, the guard `n <= 1` is the base case (`factorial` returns `1`
and `fibonacci` returns `n` there, negative arguments included), and each
recursive call strictly decreases the distance-to-base-case measure. -/
theorem recursion_fixture_terminates :
    (∀ n : Int, ∃ k : Nat, factorialFuel k n = some (factorial n)) ∧
    (∀ n : Int, n ≤ 1 → factorial n = 1) ∧
    (∀ n : Int, ∃ k : Nat, fibonacciFuel k n = some (fibonacci n)) ∧
    (∀ n : Int, n ≤ 1 → fibonacci n = n) ∧
    (∀ n : Int, ¬ n ≤ 1 →
      (n - 1).toNat < n.toNat ∧ (n - 2).toNat < n.toNat) := by
  refine ⟨fun n => ⟨n.toNat + 1, factorialFuel_eq _ n (by omega)⟩,
    fun n h => ?_,
    fun n => ⟨n.toNat + 1, fibonacciFuel_eq _ n (by omega)⟩,
    fun n h => ?_,
    fun n h => by omega⟩
  · rw [factorial, if_pos h]
  · rw [fibonacci, if_pos h]

/-- C10 witness: the termination statement applied at concrete inputs:
`factorial(-3) = 1`, `fibonacci(-2) = -2`, and the measure decrease at
`n = 7`. -/
theorem recursion_fixture_terminates_witness :
    factorial (-3) = 1 ∧ fibonacci (-2) = -2 ∧
      ((7 : Int) - 1).toNat < (7 : Int).toNat :=
  ⟨recursion_fixture_terminates.2.1 (-3) (by decide),
   recursion_fixture_terminates.2.2.2.1 (-2) (by decide),
   (recursion_fixture_terminates.2.2.2.2 7 (by decide)).1⟩

/-! ## Break/continue fixture (`tests/cpp/grammar/09_break_continue.cpp`)

Each `for` loop is embedded as a tail-recursive function on its locals.
`break` exits the (single, innermost) enclosing loop — the function returns
the accumulator; `continue` jumps to that same loop's increment — the
function recurses without adding.  The increment `i = i + 1` is guarded by
`i <= 10`, so it never overflows and is plain integer increment here. -/

/-- The loop of `test_break`: `for (i = 1; i <= 10; i = i + 1)` with
`if (i > 5) break;` then `sum = sum + i;`. -/
def testBreakLoop (sum i : Int) : Int :=
  if i ≤ 10 then
    if i > 5 then sum
    else testBreakLoop (add32 sum i) (i + 1)
  else sum
termination_by (11 - i).toNat
decreasing_by omega

/-- `int test_break()`: runs the loop from `sum = 0`, `i = 1`. -/
def test_break : Int := testBreakLoop 0 1

/-- The loop of `test_continue`: `for (i = 1; i <= 10; i = i + 1)` with
`if (i % 2 == 0) continue;` then `sum = sum + i;`; both paths proceed to
the increment of this same loop. -/
def testContinueLoop (sum i : Int) : Int :=
  if i ≤ 10 then
    if i % 2 = 0 then testContinueLoop sum (i + 1)
    else testContinueLoop (add32 sum i) (i + 1)
  else sum
termination_by (11 - i).toNat
decreasing_by all_goals omega

/-- `int test_continue()`: runs the loop from `sum = 0`, `i = 1`. -/
def test_continue : Int := testContinueLoop 0 1

/-- `int test_break_continue()`: `test_break() + test_continue()`. -/
def test_break_continue : Int := add32 test_break test_continue

/-- C8: `break` leaves the innermost (here, only) enclosing loop as soon as
`i > 5`, so `test_break()` returns `1+2+3+4+5 = 15`; `continue` skips the
body for even `i` but still runs that loop's increment, so
`test_continue()` returns `1+3+5+7+9 = 25`. -/
theorem break_continue_results : test_break = 15 ∧ test_continue = 25 := by
  constructor
  · simp [test_break, testBreakLoop, add32, wrap32]
  · simp [test_continue, testContinueLoop, add32, wrap32]

/-! ## Arrays fixture (`tests/cpp/grammar/17_arrays.cpp`)

`sum_array(int arr[], int size)`'s array parameter is a pointer: at the
call site `sum_array(arr, 5)` the array `arr` decays to a pointer to its
first element, and every element access inside `sum_array` goes through
that decayed pointer via `arr[i]`. -/

/-- An `int*`: the pointed-into buffer and the current element offset. -/
structure IntPtr where
  buf : List Int
  off : Nat

/-- `p[i]` for an `int` pointer: the element `i` slots past the pointer
(the fixture only indexes in bounds; out-of-bounds reads default to 0). -/
def IntPtr.index (p : IntPtr) (i : Int) : Int := p.buf.getD (p.off + i.toNat) 0

/-- The loop of `sum_array`: `for (i = 0; i < size; i = i + 1)
sum = sum + arr[i];` (the guard `i < size` keeps `i + 1` in `int` range,
so the increment is plain). -/
def sumArrayLoop (arr : IntPtr) (size : Int) (sum i : Int) : Int :=
  if i < size then sumArrayLoop arr size (add32 sum (arr.index i)) (i + 1)
  else sum
termination_by (size - i).toNat
decreasing_by omega

/-- `int sum_array(int arr[], int size)`: sums `arr[0] .. arr[size-1]`
through the decayed pointer, starting from `sum = 0`, `i = 0`. -/
def sum_array (arr : IntPtr) (size : Int) : Int := sumArrayLoop arr size 0 0

/-- `int test_arrays()`: fills `int arr[5]` with `5, 10, 15, 7, 5` and
returns `sum_array(arr, 5)` — the array decays to a pointer to element 0
at this call site. -/
def test_arrays : Int := sum_array { buf := [5, 10, 15, 7, 5], off := 0 } 5

theorem sumArrayLoop_inv (l : List Int) (size : Int)
    (hsz : size ≤ (l.length : Int)) :
    ∀ (k : Nat) (i sum : Int), 0 ≤ i → (size - i).toNat = k → IsI32 sum →
      sumArrayLoop { buf := l, off := 0 } size sum i =
        wrap32 (sum + ((l.drop i.toNat).take (size - i).toNat).sum) := by
  intro k
  induction k with
  | zero =>
    intro i sum hi hk hsum
    rw [sumArrayLoop, if_neg (by omega)]
    rw [hk]
    simpa using (wrap32_eq_self hsum).symm
  | succ k ih =>
    intro i sum hi hk hsum
    have hlt : i < size := by omega
    have hbound : i.toNat < l.length := by omega
    rw [sumArrayLoop, if_pos hlt]
    rw [ih (i + 1) (add32 sum ((IntPtr.mk l 0).index i)) (by omega) (by omega)
      (wrap32_isI32 _)]
    rw [add32, wrap32_add_left]
    have hdrop : l.drop i.toNat = l[i.toNat] :: l.drop (i.toNat + 1) :=
      List.drop_eq_getElem_cons hbound
    have hidx : (IntPtr.index { buf := l, off := 0 } i) = l[i.toNat] := by
      simp [IntPtr.index, List.getD_eq_getElem, hbound]
    have htn : (i + 1).toNat = i.toNat + 1 := by omega
    rw [hk, hidx, htn, hdrop]
    have hk2 : (size - (i + 1)).toNat = k := by omega
    rw [hk2, List.take_succ_cons, List.sum_cons]
    ring_nf

/-- C9: `sum_array(arr, size)` returns the (32-bit) sum of the first
`size` elements reached through the decayed pointer, for every buffer of
length at least `size >= 0`; in particular `test_arrays()`, which fills
`int arr[5]` with `5, 10, 15, 7, 5` and calls `sum_array(arr, 5)`,
returns `42`. -/
theorem sum_array_spec :
    (∀ (l : List Int) (size : Int), 0 ≤ size → size ≤ (l.length : Int) →
      sum_array { buf := l, off := 0 } size = wrap32 ((l.take size.toNat).sum)) ∧
    test_arrays = 42 := by
  have main : ∀ (l : List Int) (size : Int), 0 ≤ size → size ≤ (l.length : Int) →
      sum_array { buf := l, off := 0 } size = wrap32 ((l.take size.toNat).sum) := by
    intro l size h0 hlen
    unfold sum_array
    rw [sumArrayLoop_inv l size hlen (size - 0).toNat 0 0 le_rfl rfl (by decide)]
    simp
  refine ⟨main, ?_⟩
  rw [show test_arrays = sum_array { buf := [5, 10, 15, 7, 5], off := 0 } 5 from rfl]
  rw [main [5, 10, 15, 7, 5] 5 (by decide) (by decide)]
  decide

/-- C9 witness: the general statement applied at the `test_arrays` input
gives `42`. -/
theorem sum_array_spec_witness :
    sum_array { buf := [5, 10, 15, 7, 5], off := 0 } 5 =
      wrap32 (([5, 10, 15, 7, 5] : List Int).take (5 : Int).toNat).sum := by
  exact sum_array_spec.1 [5, 10, 15, 7, 5] 5 (by decide) (by decide)

/-! ## Namespace resolution fixture
(`tests/clang_integration/namespace_resolution.cpp`, `tests/cpp/namespace.cpp`)

The scope tree and declarations below are transcribed from the fixture:
namespaces `foo` (with `helper` and `test_same_namespace`), `bar` (with
`bar_helper`), `baz` (with `baz_func`), `outer::inner` (with
`nested_func`), `ns`, and the global namespace holding `global_func`, the
directive `using namespace bar;`, the declaration `using baz::baz_func;`,
and the free functions `test_using_namespace` / `test_using_declaration`.
The lookup algorithm itself belongs to the translator core, whose code is
not in the source tree; it is modelled from the spec. -/

/-- The namespace scopes of the fixture (`outerNs`/`innerNs` are
`outer`/`inner`, `nsScope` is `ns`). -/
inductive ScopeId where
  | globalNs | fooNs | barNs | bazNs | outerNs | innerNs | nsScope
  deriving DecidableEq

/-- The function declarations of the fixture that lookups can target. -/
inductive DeclId where
  | fooHelper | barHelper | bazFunc | innerNestedFunc | globalFunc
  deriving DecidableEq

/-- Parent scope of each scope (scopes form a tree rooted at the global
namespace). -/
def scopeParent : ScopeId → Option ScopeId
  | .globalNs => none
  | .innerNs => some .outerNs
  | _ => some .globalNs

/-- The bindings each scope itself holds, by unqualified name.  The
declaration `using baz::baz_func;` injects a binding for `baz_func` into
the global scope (spec: using declarations inject a named binding into the
enclosing scope); the directive `using namespace bar;` injects nothing. -/
def ownBindings : ScopeId → String → List DeclId
  | .fooNs, "helper" => [.fooHelper]
  | .barNs, "bar_helper" => [.barHelper]
  | .bazNs, "baz_func" => [.bazFunc]
  | .innerNs, "nested_func" => [.innerNestedFunc]
  | .globalNs, "global_func" => [.globalFunc]
  | .globalNs, "baz_func" => [.bazFunc]
  | _, _ => []

/-- The `using` directives active in each scope: the fixture's
`using namespace bar;` at global scope. -/
def activeDirectives : ScopeId → List ScopeId
  | .globalNs => [.barNs]
  | _ => []

/-- Modelled from the spec: the bindings for a name visible in one scope —
the scope's own bindings merged with all names transitively imported by its
active `using` directives.  The fuel bounds the directive-chain depth; the
fixture has no directive cycles and depth 7 (the number of scopes)
suffices. -/
def visibleBindings : Nat → ScopeId → String → List DeclId
  | 0, _, _ => []
  | fuel + 1, s, n =>
    ownBindings s n ++
      (activeDirectives s).flatMap fun t => visibleBindings fuel t n

/-- Modelled from the spec: unqualified lookup walks from the innermost
scope outward and stops at the first scope with a non-empty visible
binding set. -/
def unqualifiedLookup : Nat → ScopeId → String → List DeclId
  | 0, _, _ => []
  | fuel + 1, s, n =>
    let r := visibleBindings (fuel + 1) s n
    if r.isEmpty then
      match scopeParent s with
      | some p => unqualifiedLookup fuel p n
      | none => []
    else r

/-- Return value of each leaf function of the fixture. -/
def declReturnValue : DeclId → Int
  | .fooHelper => 42
  | .barHelper => 100
  | .bazFunc => 200
  | .innerNestedFunc => 300
  | .globalFunc => 500

/-- An unqualified call `n()` issued from inside scope `s`: resolves the
name (fuel 7 covers the whole scope tree) and, when the lookup yields a
single declaration, calls it; `none` is the resolution-failure outcome. -/
def callUnqualified (s : ScopeId) (n : String) : Option Int :=
  match unqualifiedLookup 7 s n with
  | [d] => some (declReturnValue d)
  | _ => none

/-- `foo::test_same_namespace()`: `return helper();`, an unqualified call
issued from inside namespace `foo`. -/
def test_same_namespace : Option Int := callUnqualified .fooNs "helper"

/-- `test_using_namespace()`: `return bar_helper();`, an unqualified call
issued from the global scope, compiled after `using namespace bar;`. -/
def test_using_namespace : Option Int := callUnqualified .globalNs "bar_helper"

/-- C6: `foo::test_same_namespace()` resolves `helper` to `foo::helper`
and returns `42`; `test_using_namespace()` resolves `bar_helper` to
`bar::bar_helper` — found only through the `using namespace bar;`
directive, which injects no binding into the global scope itself — and
returns `100`. -/
theorem namespace_resolution_results :
    unqualifiedLookup 7 .fooNs "helper" = [.fooHelper] ∧
    test_same_namespace = some 42 ∧
    ownBindings .globalNs "bar_helper" = [] ∧
    unqualifiedLookup 7 .globalNs "bar_helper" = [.barHelper] ∧
    test_using_namespace = some 100 := by
  refine ⟨by decide, by decide, by decide, by decide, by decide⟩

/-! ## Concepts fixture (`tests/clang_integration/concepts.cpp`)

The fixture declares `concept Integral = __is_integral(T)` and the
constrained function template
`template<typename T> requires Integral<T> T twice(T x) { return x + x; }`.
The concept-satisfaction and overload machinery belongs to the translator
core, whose code is not in the source tree; it is modelled from the spec:
a `requires` clause is evaluated after deduction and before the candidate
joins the viable set, a failed `requires` removes the candidate silently
(SFINAE), and an empty viable set is the `NoMatchingFunction` error. -/

/-- The C++ types the concepts fixture instantiates templates at. -/
inductive CTy where
  | intTy | doubleTy
  deriving DecidableEq

/-- Modelled from the spec: the compiler builtin `__is_integral(T)`
(`int` is an integral type, `double` is not). -/
def isIntegralBuiltin : CTy → Bool
  | .intTy => true
  | .doubleTy => false

/-- `concept Integral = __is_integral(T);` of the fixture. -/
def IntegralConcept (t : CTy) : Bool := isIntegralBuiltin t

/-- Argument/result values at the fixture's call sites.  The `double`
payload is irrelevant to the claim: the call `twice<double>(3.0)` fails
resolution before any `double` arithmetic is performed, so the constructor
is a bare tag. -/
inductive CVal where
  | intV : Int → CVal
  | doubleV : CVal
  deriving DecidableEq

/-- The static type of a call argument. -/
def CVal.ty : CVal → CTy
  | .intV _ => .intTy
  | .doubleV => .doubleTy

/-- Modelled from the spec: the outcome of overload resolution at a call
site — a resolved call's value, or the error for an empty viable set. -/
inductive ResolveOutcome where
  | resolved : CVal → ResolveOutcome
  | noMatchingFunction : ResolveOutcome
  deriving DecidableEq

/-- Modelled from the spec: the viable set for the call `twice(arg)` after
deducing `T` from the argument type — the single instantiation `twice<T>`
when `Integral<T>` holds, and the empty set (silent SFINAE removal)
otherwise. -/
def twiceViableSet (t : CTy) : List CTy :=
  if IntegralConcept t then [t] else []

/-- The instantiated body of `twice<int>`: `return x + x;` on `int`. -/
def twiceIntBody (x : Int) : Int := add32 x x

/-- Applying the chosen `twice` instantiation to the argument.  Only the
`int` instantiation is ever chosen (see `twiceViableSet`); the `double`
arm is dead, as `twice<double>` never enters the viable set. -/
def applyTwice : CVal → CVal
  | .intV x => .intV (twiceIntBody x)
  | .doubleV => .doubleV

/-- Modelled from the spec: a call `twice(arg)` with no other candidate in
scope — resolve against the viable set; an empty set yields
`NoMatchingFunction`. -/
def callTwice (arg : CVal) : ResolveOutcome :=
  match twiceViableSet arg.ty with
  | [] => .noMatchingFunction
  | _ :: _ => .resolved (applyTwice arg)

/-- C7: `twice<int>(3)` satisfies `Integral`, is a viable candidate, and
returns `6`; `twice<double>(3.0)` fails the `requires` clause, is silently
removed from the candidate set (SFINAE), and the call resolves to
`NoMatchingFunction` since no other candidate exists. -/
theorem twice_concept_results :
    IntegralConcept .intTy = true ∧
    twiceViableSet .intTy = [.intTy] ∧
    callTwice (.intV 3) = .resolved (.intV 6) ∧
    IntegralConcept .doubleTy = false ∧
    twiceViableSet .doubleTy = [] ∧
    callTwice .doubleV = .noMatchingFunction := by
  refine ⟨rfl, by decide, by decide, rfl, by decide, by decide⟩
